import Mathlib

/-!
Verification of the image push orchestration logic of `libimage/push.go`
(`Runtime.Push` and `pushImage`).

The push logic itself is embedded faithfully from the Go source.  External
collaborators (local image store lookup, transport-reference parsing,
the copy engine, the event sink) are modelled as oracle functions carried
in an `Env` record, exactly as the spec declares them out of scope and
consumed through narrow contracts.  Observable behaviour — the returned
result, the (possibly mutated) options value, the emitted events, the
single-push invocations and the copy-engine delegations — is returned
explicitly as data, so every property can be evaluated on concrete inputs.
-/

deriving instance DecidableEq for Except

namespace Libimage

/-- Modelled from the spec: errors produced by this core or propagated from
collaborators.  `conflictingTag` is the Go error
"tag can't be used with --all-tags" (slash "-a"); `unsupportedAllTags` is
"--all-tags can only be used with docker transport"; `ext` wraps an error
value propagated verbatim from an external collaborator (distinct values in
Go, hence a distinct constructor here). -/
inductive GoErr where
  | conflictingTag
  | unsupportedAllTags
  | ext (msg : String)
  deriving DecidableEq, Repr

/-- `dockerTransport.Transport.Name()` in containers/image. -/
def dockerTransportName : String := "docker"

/-- `dockerArchiveTransport.Transport.Name()` in containers/image. -/
def dockerArchiveTransportName : String := "docker-archive"

/-- A parsed transport-qualified image reference: the transport's name plus
its transport-specific location (`types.ImageReference` restricted to what
the push logic inspects). -/
structure ImageRef where
  transport : String
  location : String
  deriving DecidableEq, Repr

/-- A named docker reference as returned by `reference.ParseNamed`; `tag` is
`some t` exactly when the value implements `reference.NamedTagged`. -/
structure NamedRef where
  name : String
  tag : Option String
  deriving DecidableEq, Repr

/-- Modelled from the spec: the generic copy configuration embedded in
`PushOptions`.  `dockerArchiveAdditionalTags` is the archive-preservation
tag list written by `pushImage`; `otherFields` stands for all remaining
copy-configuration fields, which this core forwards verbatim. -/
structure CopyOptions where
  dockerArchiveAdditionalTags : List NamedRef := []
  otherFields : Nat := 0
  deriving DecidableEq, Repr

/-- `PushOptions` from push.go: embedded `CopyOptions` plus `AllTags`. -/
structure PushOptions where
  copyOptions : CopyOptions := {}
  allTags : Bool := false
  deriving DecidableEq, Repr

/-- Event types; the push logic only emits `imagePush`
(`EventTypeImagePush`). -/
inductive EventType where
  | imagePush
  deriving DecidableEq, Repr

/-- The event written to the runtime's event channel.  Time is an abstract
timestamp supplied by the environment (`time.Now()`). -/
structure Event where
  id : String
  name : String
  time : Nat
  type : EventType
  deriving DecidableEq, Repr

/-- Result bytes of a copy: `none` models a nil Go byte slice. -/
abbrev Bytes := Option (List Nat)

/-- One delegation to the copy engine: the copy options it received, the
source storage reference and the resolved destination reference. -/
structure CopyCall where
  options : CopyOptions
  src : String
  dest : ImageRef
  deriving DecidableEq, Repr

/-- The local image handle: its ID, its storage reference and its
named-tagged repo tags (the `tag.Tag()` strings), each as the collaborator
would answer for it. -/
structure Image where
  id : String
  storageReference : Except String String
  namedTaggedRepoTags : Except String (List String)
  deriving DecidableEq, Repr

/-- Modelled from the spec: the external collaborators consumed by the push
logic (§6 of the spec) — local image store lookup, transport registry
parsing, named-reference parsing, copier construction, the copy engine, the
clock and whether the runtime has an event channel. -/
structure Env where
  lookupImage : String → Except String (Image × String)
  parseImageName : String → Except String ImageRef
  parseNamed : String → Option NamedRef
  newCopier : CopyOptions → Except String Unit
  copy : CopyOptions → String → ImageRef → Except String Bytes
  now : Nat
  eventChannel : Bool

/-- Everything observable about one call into the push logic: the returned
value, the options after the call (Go mutates them through a pointer), the
events written, the single-push invocations performed (their destination
strings, in order) and the copy-engine delegations. -/
structure PushOut where
  result : Except GoErr Bytes
  options : PushOptions
  events : List Event
  calls : List String
  copies : List CopyCall
  deriving DecidableEq, Repr

/-- `strings.HasPrefix s p`, stated over the character data. -/
def hasPre (s p : String) : Bool :=
  decide (s.data.take p.data.length = p.data)

/-- `strings.TrimPrefix s p`: drop `p` from the front of `s` if present,
otherwise return `s` unchanged. -/
def trimPre (s p : String) : String :=
  if hasPre s p then String.mk (s.data.drop p.data.length) else s

/-- `strings.ContainsAny d ":"`: does the string contain a colon? -/
def containsColon (s : String) : Bool :=
  s.data.any (fun c => c == ':')

/-- Wraps a collaborator's result into this core's error type: the value or
error is propagated verbatim. -/
def wrapExt : Except String Bytes → Except GoErr Bytes
  | .ok b => .ok b
  | .error e => .error (.ext e)

/-- Destination resolution inside `pushImage`: parse the destination as a
transport-qualified reference; on failure retry with the registry transport
prefix "docker://" prepended; if both fail, return the original parse
error. -/
def resolveDest (env : Env) (destination : String) : Except GoErr ImageRef :=
  match env.parseImageName destination with
  | .ok destRef => .ok destRef
  | .error err =>
    match env.parseImageName ("docker://" ++ destination) with
    | .ok dockerRef => .ok dockerRef
    | .error _ => .error (.ext err)

/-- `pushImage` from push.go: obtain the storage reference, resolve the
destination (with registry fallback), reject all-tags pushes to non-docker
transports, then (deferred) schedule the push event, write the
archive-preservation tag for tagged docker-archive destinations, build a
copier and delegate to the copy engine. -/
def pushImage (env : Env) (destination : String) (options : PushOptions)
    (image : Image) : PushOut :=
  match image.storageReference with
  | .error e => ⟨.error (.ext e), options, [], [destination], []⟩
  | .ok srcRef =>
    match resolveDest env destination with
    | .error e => ⟨.error e, options, [], [destination], []⟩
    | .ok destRef =>
      if destRef.transport != dockerTransportName && options.allTags then
        ⟨.error .unsupportedAllTags, options, [], [destination], []⟩
      else
        let events : List Event :=
          if env.eventChannel then
            [⟨image.id, destination, env.now, .imagePush⟩]
          else []
        let options :=
          if destRef.transport == dockerArchiveTransportName then
            match env.parseNamed destination with
            | some named =>
              if named.tag.isSome then
                { options with
                    copyOptions :=
                      { options.copyOptions with
                          dockerArchiveAdditionalTags := [named] } }
              else options
            | none => options
          else options
        match env.newCopier options.copyOptions with
        | .error e => ⟨.error (.ext e), options, events, [destination], []⟩
        | .ok _ =>
          ⟨wrapExt (env.copy options.copyOptions srcRef destRef), options,
            events, [destination], [⟨options.copyOptions, srcRef, destRef⟩]⟩

/-- The fully tagged destination string built in the all-tags loop
(`fmt.Sprintf("%s:%s", destination, tag.Tag())`). -/
def fullTag (destination tag : String) : String :=
  destination ++ ":" ++ tag

/-- The per-tag loop of `Runtime.Push` under `AllTags`: push
`destination ++ ":" ++ tag` for each tag in order, threading the (mutated)
options, discarding per-tag bytes, stopping at the first error; on full
success return nil bytes. -/
def pushLoop (env : Env) (image : Image) (destination : String) :
    PushOptions → List String → PushOut
  | options, [] => ⟨.ok none, options, [], [], []⟩
  | options, tag :: rest =>
    let out := pushImage env (fullTag destination tag) options image
    match out.result with
    | .error e => ⟨.error e, out.options, out.events, out.calls, out.copies⟩
    | .ok _ =>
      let outRest := pushLoop env image destination out.options rest
      ⟨outRest.result, outRest.options, out.events ++ outRest.events,
        out.calls ++ outRest.calls, out.copies ++ outRest.copies⟩

/-- The body of `Runtime.Push` after source lookup and destination
defaulting: under `AllTags`, reject destinations that still contain a colon
after stripping a "docker://" prefix, look up the named-tagged repo
tags and run the loop; otherwise perform a single `pushImage`. -/
def pushResolved (env : Env) (image : Image) (destination : String)
    (options : PushOptions) : PushOut :=
  if options.allTags then
    let d := trimPre destination "docker://"
    if containsColon d then
      ⟨.error .conflictingTag, options, [], [], []⟩
    else
      match image.namedTaggedRepoTags with
      | .error e => ⟨.error (.ext e), options, [], [], []⟩
      | .ok namedRepoTags => pushLoop env image destination options namedRepoTags
  else
    pushImage env destination options image

/-- `Runtime.Push` from push.go: default nil options, look up the source
image, default an empty destination to the source's resolved location, then
dispatch on `AllTags`. -/
def Push (env : Env) (source destination : String)
    (optionsIn : Option PushOptions) : PushOut :=
  let options := optionsIn.getD {}
  match env.lookupImage source with
  | .error e => ⟨.error (.ext e), options, [], [], []⟩
  | .ok (image, resolvedSource) =>
    pushResolved env image
      (if destination = "" then resolvedSource else destination) options

/-! ### Derived notions used to state the properties -/

/-- Does every per-tag push of the given tag list succeed, threading the
options exactly as the loop does? -/
def allOk (env : Env) (image : Image) (destination : String) :
    PushOptions → List String → Bool
  | _, [] => true
  | options, tag :: rest =>
    let out := pushImage env (fullTag destination tag) options image
    match out.result with
    | .error _ => false
    | .ok _ => allOk env image destination out.options rest

/-- The options value after the loop has processed the given tag list
(each iteration may mutate the shared options). -/
def optsAfter (env : Env) (image : Image) (destination : String) :
    PushOptions → List String → PushOptions
  | options, [] => options
  | options, tag :: rest =>
    optsAfter env image destination
      (pushImage env (fullTag destination tag) options image).options rest

/-! ### Concrete collaborators for evaluating the properties -/

/-- A local image with two known tags. -/
def imgW : Image :=
  ⟨"sha256:0123", .ok "storageref-0123", .ok ["v1", "v2"]⟩

/-- A local image with no known tags. -/
def img0 : Image :=
  ⟨"sha256:0000", .ok "storageref-0000", .ok []⟩

/-- A transport parser recognizing a few schemes, defaulting to failure. -/
def parseW : String → Except String ImageRef := fun d =>
  if hasPre d "docker://" then .ok ⟨"docker", d⟩
  else if hasPre d "oci-archive:" then .ok ⟨"oci-archive", d⟩
  else if hasPre d "docker-archive:" then .ok ⟨"docker-archive", d⟩
  else if hasPre d "dir:" then .ok ⟨"dir", d⟩
  else .error ("invalid image name " ++ d)

/-- A named-reference parser knowing one tagged destination string. -/
def namedW : String → Option NamedRef := fun d =>
  if d = "docker-archive:arch.tar" then some ⟨"repo/arch", some "t1"⟩
  else none

/-- A well-behaved environment: lookup knows image "img", the copier always
builds, every copy succeeds, and the runtime has an event channel. -/
def envW : Env where
  lookupImage := fun s =>
    if s = "img" then .ok (imgW, "quay.io/img")
    else if s = "img0" then .ok (img0, "quay.io/img0")
    else .error "image not known"
  parseImageName := parseW
  parseNamed := namedW
  newCopier := fun _ => .ok ()
  copy := fun _ _ _ => .ok (some [42])
  now := 7
  eventChannel := true

/-- Like `envW` but copier construction always fails, so every single push
fails after destination resolution. -/
def envF : Env :=
  { envW with newCopier := fun _ => .error "copier down" }

/-- Like `envW` but the transport parser rejects every string, with an
error message naming its input. -/
def envP : Env :=
  { envW with parseImageName := fun d => .error ("cannot parse " ++ d) }

/-- Like `envW` but every destination parses directly as a `dir` transport
reference, so a colon-free base plus tag reaches a non-docker transport. -/
def envN : Env :=
  { envW with parseImageName := fun d => .ok ⟨"dir", d⟩ }

/-! ### General lemmas about the embedding -/

/-- Every call to `pushImage` records exactly its own invocation. -/
theorem pushImage_calls (env : Env) (d : String) (o : PushOptions)
    (i : Image) : (pushImage env d o i).calls = [d] := by
  unfold pushImage
  rcases i.storageReference with e | srcRef
  · rfl
  · rcases resolveDest env d with e | destRef
    · rfl
    · by_cases hc : (destRef.transport != dockerTransportName && o.allTags) = true
      · simp only [hc, if_true]
      · simp only [Bool.not_eq_true] at hc
        simp only [hc, Bool.false_eq_true, if_false]
        rcases env.parseNamed d with _ | named <;>
          rcases env.newCopier _ with e | u <;> simp

/-- `pushImage` never changes the `allTags` flag or the opaque copy
configuration; the only field it may write is the archive-preservation
list. -/
theorem pushImage_frame (env : Env) (d : String) (o : PushOptions)
    (i : Image) :
    (pushImage env d o i).options.allTags = o.allTags ∧
    (pushImage env d o i).options.copyOptions.otherFields =
      o.copyOptions.otherFields := by
  unfold pushImage
  rcases i.storageReference with e | srcRef
  · exact ⟨rfl, rfl⟩
  · rcases resolveDest env d with e | destRef
    · exact ⟨rfl, rfl⟩
    · by_cases hc : (destRef.transport != dockerTransportName && o.allTags) = true
      · simp [hc]
      · simp only [Bool.not_eq_true] at hc
        simp only [hc, Bool.false_eq_true, if_false]
        by_cases ha : (destRef.transport == dockerArchiveTransportName) = true
        · simp only [ha, if_true]
          rcases env.parseNamed d with _ | named
          · rcases env.newCopier _ with e | u <;> simp
          · by_cases ht : named.tag.isSome = true
            · simp only [ht, if_true]
              rcases env.newCopier _ with e | u <;> simp
            · simp only [Bool.not_eq_true] at ht
              simp only [ht, Bool.false_eq_true, if_false]
              rcases env.newCopier _ with e | u <;> simp
        · simp only [Bool.not_eq_true] at ha
          simp only [ha, Bool.false_eq_true, if_false]
          rcases env.newCopier _ with e | u <;> simp

/-- Unfolding of `pushImage` once the storage reference is available, the
destination has resolved and the all-tags transport check has passed. -/
theorem pushImage_run
    (env : Env) (d : String) (o : PushOptions) (i : Image)
    (srcRef : String) (destRef : ImageRef)
    (hsrc : i.storageReference = .ok srcRef)
    (hres : resolveDest env d = .ok destRef)
    (hcheck : (destRef.transport != dockerTransportName && o.allTags)
      = false) :
    pushImage env d o i =
      (let events : List Event :=
        if env.eventChannel then [⟨i.id, d, env.now, .imagePush⟩] else []
      let o' : PushOptions :=
        if destRef.transport == dockerArchiveTransportName then
          match env.parseNamed d with
          | some named =>
            if named.tag.isSome then
              { o with copyOptions :=
                  { o.copyOptions with dockerArchiveAdditionalTags := [named] } }
            else o
          | none => o
        else o
      match env.newCopier o'.copyOptions with
      | .error e => ⟨.error (.ext e), o', events, [d], []⟩
      | .ok _ =>
        ⟨wrapExt (env.copy o'.copyOptions srcRef destRef), o', events, [d],
          [⟨o'.copyOptions, srcRef, destRef⟩]⟩) := by
  simp only [pushImage, hsrc, hres, hcheck, Bool.false_eq_true, if_false]

/-- When the destination does not parse as a tagged named reference, the
options value comes back from `pushImage` unchanged, on every path. -/
theorem pushImage_opts_const (env : Env) (d : String) (o : PushOptions)
    (i : Image) (hn : ∀ m, env.parseNamed d = some m → m.tag = none) :
    (pushImage env d o i).options = o := by
  unfold pushImage
  rcases i.storageReference with e | srcRef
  · rfl
  · rcases resolveDest env d with e | destRef
    · rfl
    · by_cases hc : (destRef.transport != dockerTransportName && o.allTags) = true
      · simp [hc]
      · simp only [Bool.not_eq_true] at hc
        simp only [hc, Bool.false_eq_true, if_false]
        by_cases ha : (destRef.transport == dockerArchiveTransportName) = true
        · simp only [ha, if_true]
          rcases hm : env.parseNamed d with _ | named
          · rcases env.newCopier _ with e | u <;> simp
          · have := hn named hm
            simp only [this, Option.isSome_none, Bool.false_eq_true, if_false]
            rcases env.newCopier _ with e | u <;> simp
        · simp only [Bool.not_eq_true] at ha
          simp only [ha, Bool.false_eq_true, if_false]
          rcases env.newCopier _ with e | u <;> simp

/-- The archive-preservation field after `pushImage`: either untouched, or
overwritten with the tagged named reference parsed from the destination. -/
theorem pushImage_tags_field (env : Env) (d : String) (o : PushOptions)
    (i : Image) :
    (pushImage env d o i).options.copyOptions.dockerArchiveAdditionalTags =
      o.copyOptions.dockerArchiveAdditionalTags ∨
    ∃ m, env.parseNamed d = some m ∧ m.tag.isSome = true ∧
      (pushImage env d o i).options.copyOptions.dockerArchiveAdditionalTags
        = [m] := by
  unfold pushImage
  rcases i.storageReference with e | srcRef
  · exact .inl rfl
  · rcases resolveDest env d with e | destRef
    · exact .inl rfl
    · by_cases hc : (destRef.transport != dockerTransportName && o.allTags) = true
      · left; simp [hc]
      · simp only [Bool.not_eq_true] at hc
        simp only [hc, Bool.false_eq_true, if_false]
        by_cases ha : (destRef.transport == dockerArchiveTransportName) = true
        · simp only [ha, if_true]
          rcases hm : env.parseNamed d with _ | m
          · left; rcases env.newCopier _ with e | u <;> simp
          · by_cases ht : m.tag.isSome = true
            · right
              refine ⟨m, rfl, ht, ?_⟩
              simp only [ht, if_true]
              rcases env.newCopier _ with e | u <;> simp
            · left
              simp only [Bool.not_eq_true] at ht
              simp only [ht, Bool.false_eq_true, if_false]
              rcases env.newCopier _ with e | u <;> simp
        · left
          simp only [Bool.not_eq_true] at ha
          simp only [ha, Bool.false_eq_true, if_false]
          rcases env.newCopier _ with e | u <;> simp

/-- A tagged docker-archive destination overwrites the archive-preservation
field of the shared options, and the write is visible after the call. -/
theorem pushImage_opts_tagged (env : Env) (d : String) (o : PushOptions)
    (i : Image) (srcRef : String) (destRef : ImageRef) (named : NamedRef)
    (t : String)
    (hsrc : i.storageReference = .ok srcRef)
    (hres : resolveDest env d = .ok destRef)
    (harch : destRef.transport = dockerArchiveTransportName)
    (hall : o.allTags = false)
    (hn : env.parseNamed d = some named)
    (htag : named.tag = some t) :
    (pushImage env d o i).options =
      { o with copyOptions :=
          { o.copyOptions with dockerArchiveAdditionalTags := [named] } } := by
  have hcheck : (destRef.transport != dockerTransportName && o.allTags)
      = false := by simp [hall]
  have ha : (destRef.transport == dockerArchiveTransportName) = true := by
    simp [harch]
  rw [pushImage_run env d o i srcRef destRef hsrc hres hcheck]
  simp only [ha, if_true, hn, htag, Option.isSome_some]
  rcases env.newCopier _ with e | u <;> simp

/-- Under all-tags, an effective destination whose stripped form contains a
colon makes `Push` fail with the conflicting-tag error without any push,
copy delegation or event. -/
theorem push_colon_reject_aux
    (env : Env) (source destination : String) (optionsIn : Option PushOptions)
    (image : Image) (resolvedSource : String)
    (hlk : env.lookupImage source = .ok (image, resolvedSource))
    (hall : (optionsIn.getD {}).allTags = true)
    (hcolon : containsColon
      (trimPre (if destination = "" then resolvedSource else destination)
        "docker://") = true) :
    Push env source destination optionsIn =
      ⟨.error .conflictingTag, optionsIn.getD {}, [], [], []⟩ := by
  simp only [Push, hlk]
  simp only [pushResolved, hall, if_true, hcolon]

/-- Under all-tags with a colon-free stripped destination, `Push` reduces
to the per-tag loop over the image's named-tagged repo tags. -/
theorem push_to_loop
    (env : Env) (source destination : String) (optionsIn : Option PushOptions)
    (image : Image) (resolvedSource : String) (tags : List String)
    (hlk : env.lookupImage source = .ok (image, resolvedSource))
    (hall : (optionsIn.getD {}).allTags = true)
    (hdest : destination ≠ "")
    (hcolon : containsColon (trimPre destination "docker://") = false)
    (htags : image.namedTaggedRepoTags = .ok tags) :
    Push env source destination optionsIn =
      pushLoop env image destination (optionsIn.getD {}) tags := by
  simp only [Push, hlk]
  rw [if_neg hdest]
  simp only [pushResolved, hall, if_true, hcolon, Bool.false_eq_true,
    if_false, htags]

/-- If every per-tag push succeeds, the loop pushes each tag in order and
returns success with nil payload. -/
theorem pushLoop_all_ok (env : Env) (i : Image) (dest : String) :
    ∀ (tags : List String) (o : PushOptions),
    allOk env i dest o tags = true →
    (pushLoop env i dest o tags).result = .ok none ∧
    (pushLoop env i dest o tags).calls = tags.map (fullTag dest) := by
  intro tags
  induction tags with
  | nil => intro o _; exact ⟨rfl, rfl⟩
  | cons t rest ih =>
    intro o h
    simp only [allOk] at h
    rcases hres : (pushImage env (fullTag dest t) o i).result with e | b
    · rw [hres] at h; simp at h
    · rw [hres] at h
      have hrest := ih (pushImage env (fullTag dest t) o i).options h
      simp only [pushLoop]
      rw [hres]
      refine ⟨hrest.1, ?_⟩
      simp [pushImage_calls, hrest.2]

/-- The loop stops at the first failing tag: the tags before it were
pushed, the failing tag was attempted, its error is returned, and no later
tag is pushed. -/
theorem pushLoop_first_err (env : Env) (i : Image) (dest : String) :
    ∀ (pre : List String) (o : PushOptions) (t : String) (post : List String)
      (e : GoErr),
    allOk env i dest o pre = true →
    (pushImage env (fullTag dest t) (optsAfter env i dest o pre) i).result
      = .error e →
    (pushLoop env i dest o (pre ++ t :: post)).result = .error e ∧
    (pushLoop env i dest o (pre ++ t :: post)).calls =
      (pre ++ [t]).map (fullTag dest) := by
  intro pre
  induction pre with
  | nil =>
    intro o t post e _ hfail
    simp only [optsAfter] at hfail
    simp only [List.nil_append, pushLoop]
    rw [hfail]
    simp [pushImage_calls]
  | cons p rest ih =>
    intro o t post e hok hfail
    simp only [allOk] at hok
    rcases hres : (pushImage env (fullTag dest p) o i).result with e' | b
    · rw [hres] at hok; simp at hok
    · rw [hres] at hok
      simp only [optsAfter] at hfail
      have hr := ih (pushImage env (fullTag dest p) o i).options t post e hok
        hfail
      simp only [List.cons_append, pushLoop]
      rw [hres]
      refine ⟨hr.1, ?_⟩
      simp [pushImage_calls, hr.2]

/-- A failed resolution always surfaces a collaborator parse error, never
one of this core's own errors. -/
theorem resolveDest_err (env : Env) (d : String) (e : GoErr)
    (h : resolveDest env d = .error e) : ∃ msg, e = .ext msg := by
  unfold resolveDest at h
  rcases hp : env.parseImageName d with e1 | r <;> rw [hp] at h
  · rcases hq : env.parseImageName ("docker://" ++ d) with e2 | r2 <;>
      rw [hq] at h
    · exact ⟨e1, (Except.error.inj h).symm⟩
    · exact Except.noConfusion h
  · exact Except.noConfusion h

/-- The unsupported-mode error can only come out of `pushImage` when
`allTags` is set and the destination resolved to a non-docker transport. -/
theorem pushImage_unsupported (env : Env) (d : String) (o : PushOptions)
    (i : Image) :
    (pushImage env d o i).result = .error .unsupportedAllTags →
    o.allTags = true ∧
    ∃ ref, resolveDest env d = .ok ref ∧
      ref.transport ≠ dockerTransportName := by
  unfold pushImage
  rcases i.storageReference with e | srcRef
  · intro h; simp at h
  · rcases hr : resolveDest env d with e | destRef
    · intro h
      obtain ⟨msg, rfl⟩ := resolveDest_err env d e hr
      simp at h
    · by_cases hc : (destRef.transport != dockerTransportName && o.allTags)
        = true
      · intro _
        rw [Bool.and_eq_true] at hc
        refine ⟨hc.2, destRef, rfl, ?_⟩
        simpa using hc.1
      · simp only [Bool.not_eq_true] at hc
        simp only [hc, Bool.false_eq_true, if_false]
        by_cases ha : (destRef.transport == dockerArchiveTransportName) = true
        · simp only [ha, if_true]
          rcases env.parseNamed d with _ | named
          · rcases env.newCopier _ with e' | u
            · intro h; simp at h
            · rcases env.copy _ _ _ with e'' | b <;>
                (intro h; simp [wrapExt] at h)
          · by_cases ht : named.tag.isSome = true
            · simp only [ht, if_true]
              rcases env.newCopier _ with e' | u
              · intro h; simp at h
              · rcases env.copy _ _ _ with e'' | b <;>
                  (intro h; simp [wrapExt] at h)
            · simp only [Bool.not_eq_true] at ht
              simp only [ht, Bool.false_eq_true, if_false]
              rcases env.newCopier _ with e' | u
              · intro h; simp at h
              · rcases env.copy _ _ _ with e'' | b <;>
                  (intro h; simp [wrapExt] at h)
        · simp only [Bool.not_eq_true] at ha
          simp only [ha, Bool.false_eq_true, if_false]
          rcases env.newCopier _ with e' | u
          · intro h; simp at h
          · rcases env.copy _ _ _ with e'' | b <;>
              (intro h; simp [wrapExt] at h)

/-- If the all-tags loop surfaces the unsupported-mode error, some tag's
fully tagged destination resolved to a non-docker transport (and the
options carried `allTags`). -/
theorem pushLoop_unsupported (env : Env) (i : Image) (dest : String) :
    ∀ (tags : List String) (o : PushOptions),
    (pushLoop env i dest o tags).result = .error .unsupportedAllTags →
    o.allTags = true ∧
    ∃ t, t ∈ tags ∧ ∃ ref,
      resolveDest env (fullTag dest t) = .ok ref ∧
      ref.transport ≠ dockerTransportName := by
  intro tags
  induction tags with
  | nil => intro o h; simp [pushLoop] at h
  | cons t rest ih =>
    intro o h
    simp only [pushLoop] at h
    rcases hres : (pushImage env (fullTag dest t) o i).result with e | b <;>
      rw [hres] at h
    · simp only at h
      have he : e = .unsupportedAllTags := Except.error.inj h
      have hu := pushImage_unsupported env (fullTag dest t) o i
        (by rw [hres, he])
      obtain ⟨ha, ref, href, htr⟩ := hu
      exact ⟨ha, t, List.mem_cons_self t rest, ref, href, htr⟩
    · simp only at h
      have hu := ih (pushImage env (fullTag dest t) o i).options h
      have hall := (pushImage_frame env (fullTag dest t) o i).1
      obtain ⟨t', ht', hrest⟩ := hu.2
      exact ⟨by rw [← hall]; exact hu.1, t',
        List.mem_cons_of_mem t ht', hrest⟩

/-- If `Push` surfaces the unsupported-mode error, the call was an all-tags
push, the stripped effective destination was colon-free, and some known
tag's fully tagged destination resolved to a non-docker transport. -/
theorem push_unsupported (env : Env) (source destination : String)
    (optionsIn : Option PushOptions)
    (h : (Push env source destination optionsIn).result
      = .error .unsupportedAllTags) :
    (optionsIn.getD {}).allTags = true ∧
    ∃ image resolvedSource tags,
      env.lookupImage source = .ok (image, resolvedSource) ∧
      image.namedTaggedRepoTags = .ok tags ∧
      containsColon (trimPre
        (if destination = "" then resolvedSource else destination)
        "docker://") = false ∧
      ∃ t, t ∈ tags ∧ ∃ ref,
        resolveDest env (fullTag
          (if destination = "" then resolvedSource else destination) t)
          = .ok ref ∧
        ref.transport ≠ dockerTransportName := by
  simp only [Push] at h
  rcases hlk : env.lookupImage source with e | p <;> rw [hlk] at h
  · simp at h
  · obtain ⟨image, resolvedSource⟩ := p
    simp only [pushResolved] at h
    rcases hall : (optionsIn.getD {}).allTags with _ | _ <;> rw [hall] at h
    · simp only [Bool.false_eq_true, if_false] at h
      have hu := pushImage_unsupported env
        (if destination = "" then resolvedSource else destination)
        (optionsIn.getD {}) image h
      rw [hall] at hu
      exact absurd hu.1 (by simp)
    · simp only [if_true] at h
      rcases hcol : containsColon (trimPre
          (if destination = "" then resolvedSource else destination)
          "docker://") with _ | _ <;> rw [hcol] at h
      · simp only [Bool.false_eq_true, if_false] at h
        rcases htags : image.namedTaggedRepoTags with e | tags <;>
          rw [htags] at h
        · simp at h
        · have hu := pushLoop_unsupported env image
            (if destination = "" then resolvedSource else destination) tags
            (optionsIn.getD {}) h
          exact ⟨rfl, image, resolvedSource, tags, rfl, htags, hcol, hu.2⟩
      · simp at h

/-- Stripping a prefix that is not present leaves the string unchanged. -/
theorem trimPre_of_not_pre (s p : String) (h : hasPre s p = false) :
    trimPre s p = s := by
  simp [trimPre, h]

/-- Any string of the form `scheme ++ ":" ++ rest` contains a colon. -/
theorem containsColon_scheme (scheme rest : String) :
    containsColon (scheme ++ ":" ++ rest) = true := by
  simp [containsColon, String.data_append, List.any_append]

/-- Any string of the form `scheme ++ ":" ++ rest` is nonempty. -/
theorem scheme_ne_empty (scheme rest : String) :
    scheme ++ ":" ++ rest ≠ "" := by
  intro h
  have hd : (scheme ++ ":" ++ rest).data = "".data := congrArg String.data h
  simp [String.data_append] at hd

/-! ### Claim theorems -/

/-- C4: in the Single-Push Operation, if `allTags` is true and the resolved
destination's transport (obtained after resolution, so the registry
fallback has been applied) is not the docker transport, the operation fails
with the unsupported-mode error, emitting no event and delegating no
copy. -/
theorem pushImage_allTags_non_docker_rejected
    (env : Env) (destination : String) (options : PushOptions) (image : Image)
    (srcRef : String) (destRef : ImageRef)
    (hsrc : image.storageReference = .ok srcRef)
    (hres : resolveDest env destination = .ok destRef)
    (htr : destRef.transport ≠ dockerTransportName)
    (hall : options.allTags = true) :
    pushImage env destination options image =
      ⟨.error .unsupportedAllTags, options, [], [destination], []⟩ := by
  have hc : (destRef.transport != dockerTransportName && options.allTags) = true := by
    simp [htr, hall]
  simp only [pushImage, hsrc, hres, hc, if_true]

/-- Witness for C4: the destination resolves to the oci-archive transport
and the all-tags push is rejected. -/
theorem pushImage_allTags_non_docker_rejected_witness :
    pushImage envW "oci-archive:x" ⟨{}, true⟩ imgW =
      ⟨.error .unsupportedAllTags, ⟨{}, true⟩, [], ["oci-archive:x"], []⟩ :=
  pushImage_allTags_non_docker_rejected envW "oci-archive:x" ⟨{}, true⟩ imgW
    "storageref-0123" ⟨"oci-archive", "oci-archive:x"⟩ (by decide) (by decide)
    (by decide) rfl

/-- C5: destination resolution parses the raw string first, retries with
the "docker://" registry prefix on failure, and when both attempts fail the
error surfaced (by the resolver and by `pushImage`) is the original parse
error, not the fallback's. -/
theorem resolveDest_keeps_original_error
    (env : Env) (destination : String) (options : PushOptions) (image : Image)
    (srcRef : String) (e1 e2 : String)
    (hsrc : image.storageReference = .ok srcRef)
    (h1 : env.parseImageName destination = .error e1)
    (h2 : env.parseImageName ("docker://" ++ destination) = .error e2) :
    resolveDest env destination = .error (.ext e1) ∧
    (pushImage env destination options image).result = .error (.ext e1) := by
  have hr : resolveDest env destination = .error (.ext e1) := by
    simp only [resolveDest, h1, h2]
  refine ⟨hr, ?_⟩
  simp only [pushImage, hsrc, hr]

/-- Witness for C5: a parser that fails on everything, with distinct error
messages for the raw and the prefixed attempt; the original message is the
one surfaced. -/
theorem resolveDest_keeps_original_error_witness :
    resolveDest envP "x" = .error (.ext "cannot parse x") ∧
    (pushImage envP "x" {} imgW).result = .error (.ext "cannot parse x") :=
  resolveDest_keeps_original_error envP "x" {} imgW "storageref-0123"
    "cannot parse x" "cannot parse docker://x" (by decide) (by decide)
    (by decide)

/-- C7: when the destination argument is empty, the push proceeds with the
source's resolved location string (as returned by the local image store
lookup) as its effective destination. -/
theorem push_empty_destination_uses_resolved_source
    (env : Env) (source : String) (optionsIn : Option PushOptions)
    (image : Image) (resolvedSource : String)
    (hlk : env.lookupImage source = .ok (image, resolvedSource)) :
    Push env source "" optionsIn =
      pushResolved env image resolvedSource (optionsIn.getD {}) := by
  simp [Push, hlk]

/-- Witness for C7. -/
theorem push_empty_destination_uses_resolved_source_witness :
    Push envW "img" "" none = pushResolved envW imgW "quay.io/img" {} :=
  push_empty_destination_uses_resolved_source envW "img" none imgW
    "quay.io/img" (by decide)

/-- C3: under `allTags`, a destination that still contains a colon after
stripping a "docker://" prefix is rejected with the conflicting-tag error before any single push,
copy delegation or event emission happens. -/
theorem push_allTags_colon_rejected
    (env : Env) (source destination : String) (optionsIn : Option PushOptions)
    (image : Image) (resolvedSource : String)
    (hlk : env.lookupImage source = .ok (image, resolvedSource))
    (hall : (optionsIn.getD {}).allTags = true)
    (hcolon : containsColon
      (trimPre (if destination = "" then resolvedSource else destination)
        "docker://") = true) :
    Push env source destination optionsIn =
      ⟨.error .conflictingTag, optionsIn.getD {}, [], [], []⟩ :=
  push_colon_reject_aux env source destination optionsIn image
    resolvedSource hlk hall hcolon

/-- Witness for C3: an explicitly tagged destination with all-tags. -/
theorem push_allTags_colon_rejected_witness :
    Push envW "img" "base:v1" (some ⟨{}, true⟩) =
      ⟨.error .conflictingTag, ⟨{}, true⟩, [], [], []⟩ :=
  push_allTags_colon_rejected envW "img" "base:v1" (some ⟨{}, true⟩) imgW
    "quay.io/img" (by decide) rfl (by decide)

/-- C1 counterexample: with an event channel present and a successfully
resolved destination, the all-tags/non-registry-transport rejection path
returns without emitting any push event — the deferred emission is
registered only after that check passes, so the claim's "every exit path"
fails at this input. -/
theorem push_event_every_exit_counterexample :
    resolveDest envW "oci-archive:a" = .ok ⟨"oci-archive", "oci-archive:a"⟩ ∧
    envW.eventChannel = true ∧
    (pushImage envW "oci-archive:a" ⟨{}, true⟩ imgW).result =
      .error .unsupportedAllTags ∧
    (pushImage envW "oci-archive:a" ⟨{}, true⟩ imgW).events = [] :=
  ⟨by decide, rfl, by decide, by decide⟩

/-- C1 amended: once the destination has resolved successfully AND the
all-tags transport check has passed, and provided the runtime has an event
channel, a push event carrying the image ID, the destination string, the
current time and type ImagePush is emitted before `pushImage` returns on
every subsequent exit path (copier-construction failure, copy failure or
success). -/
theorem pushImage_event_after_transport_check
    (env : Env) (destination : String) (options : PushOptions) (image : Image)
    (srcRef : String) (destRef : ImageRef)
    (hsrc : image.storageReference = .ok srcRef)
    (hres : resolveDest env destination = .ok destRef)
    (hcheck : (destRef.transport != dockerTransportName && options.allTags)
      = false)
    (hch : env.eventChannel = true) :
    (pushImage env destination options image).events =
      [⟨image.id, destination, env.now, .imagePush⟩] := by
  simp only [pushImage, hsrc, hres, hcheck, Bool.false_eq_true, if_false, hch,
    if_true]
  rcases env.parseNamed destination with _ | named <;>
    by_cases ha : (destRef.transport == dockerArchiveTransportName) = true <;>
      simp [ha] <;> rcases env.newCopier _ with e | u <;> simp

/-- Witness for the amended C1: a plain registry push emits the event. -/
theorem pushImage_event_after_transport_check_witness :
    (pushImage envW "quay.io/foo" {} imgW).events =
      [⟨"sha256:0123", "quay.io/foo", 7, .imagePush⟩] :=
  pushImage_event_after_transport_check envW "quay.io/foo" {} imgW
    "storageref-0123" ⟨"docker", "docker://quay.io/foo"⟩ (by decide)
    (by decide) (by decide) rfl

/-- C6: for a docker-archive destination, if the destination string parses
as a named reference with an explicit tag, the copy engine receives exactly
that one reference in the archive-preservation list; if it carries no tag
or does not parse, the copy engine receives the (initially empty) list
unchanged and the operation still proceeds, returning the copy engine's
result verbatim. -/
theorem pushImage_archive_tag_preservation
    (env : Env) (d : String) (o : PushOptions) (i : Image)
    (srcRef : String) (destRef : ImageRef)
    (hsrc : i.storageReference = .ok srcRef)
    (hres : resolveDest env d = .ok destRef)
    (harch : destRef.transport = dockerArchiveTransportName)
    (hall : o.allTags = false)
    (hinit : o.copyOptions.dockerArchiveAdditionalTags = []) :
    (∀ named t, env.parseNamed d = some named → named.tag = some t →
      env.newCopier
        { o.copyOptions with dockerArchiveAdditionalTags := [named] }
        = .ok () →
      (pushImage env d o i).copies =
        [⟨{ o.copyOptions with dockerArchiveAdditionalTags := [named] },
          srcRef, destRef⟩]) ∧
    ((∀ m, env.parseNamed d = some m → m.tag = none) →
      env.newCopier o.copyOptions = .ok () →
      (pushImage env d o i).copies = [⟨o.copyOptions, srcRef, destRef⟩] ∧
      o.copyOptions.dockerArchiveAdditionalTags = [] ∧
      (pushImage env d o i).result =
        wrapExt (env.copy o.copyOptions srcRef destRef)) := by
  have hcheck : (destRef.transport != dockerTransportName && o.allTags)
      = false := by simp [hall]
  have ha : (destRef.transport == dockerArchiveTransportName) = true := by
    simp [harch]
  constructor
  · intro named t hn htag hcop
    rw [pushImage_run env d o i srcRef destRef hsrc hres hcheck]
    simp only [ha, if_true, hn, htag, Option.isSome_some]
    simp [hcop]
  · intro hn hcop
    rw [pushImage_run env d o i srcRef destRef hsrc hres hcheck]
    rcases hm : env.parseNamed d with _ | m
    · simp only [ha, if_true, hm]
      simp [hcop, hinit]
    · have hmt := hn m hm
      simp only [ha, if_true, hm, hmt, Option.isSome_none, Bool.false_eq_true,
        if_false]
      simp [hcop, hinit]

/-- Witness for C6: a tagged archive destination puts its parsed reference
into the list the copy engine receives; an unparseable archive destination
leaves the list empty and the push proceeds. -/
theorem pushImage_archive_tag_preservation_witness :
    (pushImage envW "docker-archive:arch.tar" {} imgW).copies =
      [⟨⟨[⟨"repo/arch", some "t1"⟩], 0⟩, "storageref-0123",
        ⟨"docker-archive", "docker-archive:arch.tar"⟩⟩] ∧
    ((pushImage envW "docker-archive:plain.tar" {} imgW).copies =
        [⟨⟨[], 0⟩, "storageref-0123",
          ⟨"docker-archive", "docker-archive:plain.tar"⟩⟩] ∧
      (⟨[], 0⟩ : CopyOptions).dockerArchiveAdditionalTags = [] ∧
      (pushImage envW "docker-archive:plain.tar" {} imgW).result =
        wrapExt (envW.copy ⟨[], 0⟩ "storageref-0123"
          ⟨"docker-archive", "docker-archive:plain.tar"⟩)) :=
  ⟨(pushImage_archive_tag_preservation envW "docker-archive:arch.tar" {} imgW
      "storageref-0123" ⟨"docker-archive", "docker-archive:arch.tar"⟩
      (by decide) (by decide) rfl rfl rfl).1
      ⟨"repo/arch", some "t1"⟩ "t1" (by decide) rfl rfl,
   (pushImage_archive_tag_preservation envW "docker-archive:plain.tar" {} imgW
      "storageref-0123" ⟨"docker-archive", "docker-archive:plain.tar"⟩
      (by decide) (by decide) rfl rfl rfl).2
      (by
      intro m hm
      have hnone : envW.parseNamed "docker-archive:plain.tar" = none := by
        decide
      rw [hnone] at hm
      exact Option.noConfusion hm) rfl⟩

/-- C10: `pushImage` mutates the caller-shared options: a tagged
docker-archive push writes the parsed reference into the
archive-preservation field and the write persists after the call; no path
resets the field and no other field is ever changed; a later push reusing
the same options against an untagged archive destination forwards the
earlier call's preservation tag to the copy engine. -/
theorem pushImage_mutates_shared_options
    (env : Env) (o : PushOptions) (i : Image)
    (d₁ d₂ srcRef : String) (destRef₁ destRef₂ : ImageRef)
    (named : NamedRef) (t : String)
    (hsrc : i.storageReference = .ok srcRef)
    (hres₁ : resolveDest env d₁ = .ok destRef₁)
    (harch₁ : destRef₁.transport = dockerArchiveTransportName)
    (hall : o.allTags = false)
    (hn₁ : env.parseNamed d₁ = some named)
    (htag : named.tag = some t)
    (hres₂ : resolveDest env d₂ = .ok destRef₂)
    (harch₂ : destRef₂.transport = dockerArchiveTransportName)
    (hn₂ : ∀ m, env.parseNamed d₂ = some m → m.tag = none)
    (hcop : env.newCopier
      { o.copyOptions with dockerArchiveAdditionalTags := [named] }
      = .ok ()) :
    (pushImage env d₁ o i).options =
      { o with copyOptions :=
          { o.copyOptions with dockerArchiveAdditionalTags := [named] } } ∧
    (∀ d o', (pushImage env d o' i).options.allTags = o'.allTags ∧
      (pushImage env d o' i).options.copyOptions.otherFields =
        o'.copyOptions.otherFields ∧
      ((pushImage env d o' i).options.copyOptions.dockerArchiveAdditionalTags
          = o'.copyOptions.dockerArchiveAdditionalTags ∨
        ∃ m, env.parseNamed d = some m ∧ m.tag.isSome = true ∧
          (pushImage env d o' i).options.copyOptions.dockerArchiveAdditionalTags
            = [m])) ∧
    (pushImage env d₂ (pushImage env d₁ o i).options i).copies =
      [⟨{ o.copyOptions with dockerArchiveAdditionalTags := [named] },
        srcRef, destRef₂⟩] := by
  have ho₁ : (pushImage env d₁ o i).options =
      { o with copyOptions :=
          { o.copyOptions with dockerArchiveAdditionalTags := [named] } } :=
    pushImage_opts_tagged env d₁ o i srcRef destRef₁ named t hsrc hres₁
      harch₁ hall hn₁ htag
  refine ⟨ho₁, ?_, ?_⟩
  · intro d o'
    exact ⟨(pushImage_frame env d o' i).1, (pushImage_frame env d o' i).2,
      pushImage_tags_field env d o' i⟩
  · rw [ho₁]
    have hcheck₂ : (destRef₂.transport != dockerTransportName &&
        (({ o with copyOptions :=
          { o.copyOptions with dockerArchiveAdditionalTags := [named] } } :
            PushOptions)).allTags) = false := by
      simp [hall]
    rw [pushImage_run env d₂ _ i srcRef destRef₂ hsrc hres₂ hcheck₂]
    have ha₂ : (destRef₂.transport == dockerArchiveTransportName) = true := by
      simp [harch₂]
    rcases hm : env.parseNamed d₂ with _ | m
    · simp only [ha₂, if_true, hm]
      simp [hcop]
    · have hmt := hn₂ m hm
      simp only [ha₂, if_true, hm, hmt, Option.isSome_none,
        Bool.false_eq_true, if_false]
      simp [hcop]

/-- Witness for C10: the tag written by the first archive push is still in
the options and is forwarded by a second, untagged archive push. -/
theorem pushImage_mutates_shared_options_witness :
    (pushImage envW "docker-archive:arch.tar" {} imgW).options =
      ⟨⟨[⟨"repo/arch", some "t1"⟩], 0⟩, false⟩ ∧
    ((pushImage envW "dir:z" ⟨⟨[], 5⟩, true⟩ imgW).options.allTags = true ∧
      (pushImage envW "dir:z" ⟨⟨[], 5⟩, true⟩
          imgW).options.copyOptions.otherFields = 5 ∧
      ((pushImage envW "dir:z" ⟨⟨[], 5⟩, true⟩
            imgW).options.copyOptions.dockerArchiveAdditionalTags = [] ∨
        ∃ m, envW.parseNamed "dir:z" = some m ∧ m.tag.isSome = true ∧
          (pushImage envW "dir:z" ⟨⟨[], 5⟩, true⟩
            imgW).options.copyOptions.dockerArchiveAdditionalTags = [m])) ∧
    (pushImage envW "docker-archive:plain.tar"
        (pushImage envW "docker-archive:arch.tar" {} imgW).options
        imgW).copies =
      [⟨⟨[⟨"repo/arch", some "t1"⟩], 0⟩, "storageref-0123",
        ⟨"docker-archive", "docker-archive:plain.tar"⟩⟩] := by
  have h := pushImage_mutates_shared_options envW {} imgW
    "docker-archive:arch.tar" "docker-archive:plain.tar" "storageref-0123"
    ⟨"docker-archive", "docker-archive:arch.tar"⟩
    ⟨"docker-archive", "docker-archive:plain.tar"⟩
    ⟨"repo/arch", some "t1"⟩ "t1" (by decide) (by decide) rfl rfl (by decide)
    rfl (by decide) rfl (by
      intro m hm
      have hnone : envW.parseNamed "docker-archive:plain.tar" = none := by
        decide
      rw [hnone] at hm
      exact Option.noConfusion hm) rfl
  exact ⟨h.1, h.2.1 "dir:z" ⟨⟨[], 5⟩, true⟩, h.2.2⟩

/-- C2: under all-tags with tag list `tags`, the single-push operation runs
exactly once per tag, in order, on `destination ++ ":" ++ tag`; if every
per-tag push succeeds the result is success, and at the first failing tag
the iteration stops, that tag's error is returned, and later tags are never
pushed. -/
theorem push_allTags_per_tag_fail_fast
    (env : Env) (source destination : String) (optionsIn : Option PushOptions)
    (image : Image) (resolvedSource : String) (tags : List String)
    (hlk : env.lookupImage source = .ok (image, resolvedSource))
    (hall : (optionsIn.getD {}).allTags = true)
    (hdest : destination ≠ "")
    (hcolon : containsColon (trimPre destination "docker://") = false)
    (htags : image.namedTaggedRepoTags = .ok tags) :
    (allOk env image destination (optionsIn.getD {}) tags = true →
      (Push env source destination optionsIn).calls =
        tags.map (fullTag destination) ∧
      (Push env source destination optionsIn).result = .ok none) ∧
    (∀ pre t post e, tags = pre ++ t :: post →
      allOk env image destination (optionsIn.getD {}) pre = true →
      (pushImage env (fullTag destination t)
        (optsAfter env image destination (optionsIn.getD {}) pre)
        image).result = .error e →
      (Push env source destination optionsIn).calls =
        (pre ++ [t]).map (fullTag destination) ∧
      (Push env source destination optionsIn).result = .error e) := by
  have hb := push_to_loop env source destination optionsIn image
    resolvedSource tags hlk hall hdest hcolon htags
  constructor
  · intro hok
    have h := pushLoop_all_ok env image destination tags
      (optionsIn.getD {}) hok
    rw [hb]
    exact ⟨h.2, h.1⟩
  · intro pre t post e hsplit hok hfail
    subst hsplit
    have h := pushLoop_first_err env image destination pre
      (optionsIn.getD {}) t post e hok hfail
    rw [hb]
    exact ⟨h.2, h.1⟩

/-- Witness for C2: with tags v1 and v2, a healthy environment pushes
base:v1 then base:v2 and succeeds; with a failing copier, only base:v1 is
attempted and its error is returned. -/
theorem push_allTags_per_tag_fail_fast_witness :
    ((Push envW "img" "base" (some ⟨{}, true⟩)).calls =
        ["base:v1", "base:v2"] ∧
      (Push envW "img" "base" (some ⟨{}, true⟩)).result = .ok none) ∧
    ((Push envF "img" "base" (some ⟨{}, true⟩)).calls = ["base:v1"] ∧
      (Push envF "img" "base" (some ⟨{}, true⟩)).result =
        .error (.ext "copier down")) := by
  constructor
  · have h := (push_allTags_per_tag_fail_fast envW "img" "base"
      (some ⟨{}, true⟩) imgW "quay.io/img" ["v1", "v2"] (by decide) rfl
      (by decide) (by decide) (by decide)).1 (by decide)
    exact ⟨h.1, h.2⟩
  · have h := (push_allTags_per_tag_fail_fast envF "img" "base"
      (some ⟨{}, true⟩) imgW "quay.io/img" ["v1", "v2"] (by decide) rfl
      (by decide) (by decide) (by decide)).2 [] "v1" ["v2"]
      (.ext "copier down") rfl rfl (by decide)
    exact ⟨h.1, h.2⟩

/-- C8: under all-tags, an empty tag set is not an error — zero pushes are
performed and the call returns success; and any successful multi-tag push
returns a nil byte payload. -/
theorem push_allTags_empty_ok_nil_payload
    (env : Env) (source destination : String) (optionsIn : Option PushOptions)
    (image : Image) (resolvedSource : String) (tags : List String)
    (hlk : env.lookupImage source = .ok (image, resolvedSource))
    (hall : (optionsIn.getD {}).allTags = true)
    (hdest : destination ≠ "")
    (hcolon : containsColon (trimPre destination "docker://") = false) :
    (image.namedTaggedRepoTags = .ok [] →
      Push env source destination optionsIn =
        ⟨.ok none, optionsIn.getD {}, [], [], []⟩) ∧
    (image.namedTaggedRepoTags = .ok tags →
      allOk env image destination (optionsIn.getD {}) tags = true →
      (Push env source destination optionsIn).result = .ok none) := by
  constructor
  · intro h0
    rw [push_to_loop env source destination optionsIn image resolvedSource
      [] hlk hall hdest hcolon h0]
    rfl
  · intro htags hok
    rw [push_to_loop env source destination optionsIn image resolvedSource
      tags hlk hall hdest hcolon htags]
    exact (pushLoop_all_ok env image destination tags
      (optionsIn.getD {}) hok).1

/-- Witness for C8: an image with no tags yields success and no pushes; a
successful two-tag push returns a nil payload. -/
theorem push_allTags_empty_ok_nil_payload_witness :
    (Push envW "img0" "base" (some ⟨{}, true⟩) =
      ⟨.ok none, ⟨{}, true⟩, [], [], []⟩) ∧
    (Push envW "img" "base" (some ⟨{}, true⟩)).result = .ok none := by
  constructor
  · exact (push_allTags_empty_ok_nil_payload envW "img0" "base"
      (some ⟨{}, true⟩) img0 "quay.io/img0" [] (by decide) rfl (by decide)
      (by decide)).1 (by decide)
  · exact (push_allTags_empty_ok_nil_payload envW "img" "base"
      (some ⟨{}, true⟩) imgW "quay.io/img" ["v1", "v2"] (by decide) rfl
      (by decide) (by decide)).2 (by decide) (by decide)

/-- C9: a destination with an explicit non-registry transport scheme keeps
its colon after the docker:// strip, so an all-tags push fails with the
conflicting-tag error before any single push is attempted; consequently
the unsupported-mode error is reachable from `Push` only when a colon-free
destination base joined with ":tag" resolves to a non-docker transport. -/
theorem push_explicit_scheme_allTags (env : Env)
    (source destination : String) (optionsIn : Option PushOptions) :
    (∀ image resolvedSource scheme restStr,
      env.lookupImage source = .ok (image, resolvedSource) →
      (optionsIn.getD {}).allTags = true →
      destination = scheme ++ ":" ++ restStr →
      hasPre destination "docker://" = false →
      Push env source destination optionsIn =
        ⟨.error .conflictingTag, optionsIn.getD {}, [], [], []⟩) ∧
    ((Push env source destination optionsIn).result
        = .error .unsupportedAllTags →
      (optionsIn.getD {}).allTags = true ∧
      ∃ image resolvedSource tags,
        env.lookupImage source = .ok (image, resolvedSource) ∧
        image.namedTaggedRepoTags = .ok tags ∧
        containsColon (trimPre
          (if destination = "" then resolvedSource else destination)
          "docker://") = false ∧
        ∃ t, t ∈ tags ∧ ∃ ref,
          resolveDest env (fullTag
            (if destination = "" then resolvedSource else destination) t)
            = .ok ref ∧
          ref.transport ≠ dockerTransportName) := by
  constructor
  · intro image resolvedSource scheme restStr hlk hall hsch hnp
    have hne : destination ≠ "" := by
      rw [hsch]; exact scheme_ne_empty scheme restStr
    apply push_colon_reject_aux env source destination optionsIn image
      resolvedSource hlk hall
    rw [if_neg hne, trimPre_of_not_pre destination "docker://" hnp, hsch]
    exact containsColon_scheme scheme restStr
  · exact push_unsupported env source destination optionsIn

/-- Witness for C9: an oci-archive destination is rejected as a
conflicting tag under all-tags; in an environment where every string parses
as a `dir` reference, a colon-free base reaches the unsupported-mode error
and the characterization holds. -/
theorem push_explicit_scheme_allTags_witness :
    (Push envW "img" "oci-archive:x" (some ⟨{}, true⟩) =
      ⟨.error .conflictingTag, ⟨{}, true⟩, [], [], []⟩) ∧
    ((some (⟨{}, true⟩ : PushOptions)).getD {}).allTags = true ∧
    (∃ image resolvedSource tags,
      envN.lookupImage "img" = .ok (image, resolvedSource) ∧
      image.namedTaggedRepoTags = .ok tags ∧
      containsColon (trimPre
        (if "base" = "" then resolvedSource else "base") "docker://")
        = false ∧
      ∃ t, t ∈ tags ∧ ∃ ref,
        resolveDest envN (fullTag
          (if "base" = "" then resolvedSource else "base") t) = .ok ref ∧
        ref.transport ≠ dockerTransportName) := by
  constructor
  · exact (push_explicit_scheme_allTags envW "img" "oci-archive:x"
      (some ⟨{}, true⟩)).1 imgW "quay.io/img" "oci-archive" "x" (by decide)
      rfl rfl (by decide)
  · exact (push_explicit_scheme_allTags envN "img" "base"
      (some ⟨{}, true⟩)).2 (by decide)

end Libimage
